import Mathlib

/-!
A verification development for the MRWA workflow engine
(`src/core/orchestrator/engine.py` and the validation / correction modules).

The Python code is embedded shallowly:

* `WorkflowStage`, `TaskStatus`, `Task`, `ValidationResult`,
  `CorrectionStrategy`, `Artifact`, `LogEntry` and `WorkflowResult` mirror the
  dataclasses of `engine.py`.  Wall-clock timestamps (`datetime.now()`) carry
  no information used by any property, so timestamp fields are modelled as
  `Option Unit` (set / not set) and the workflow id as a fixed string.
  `LogEntry.metadata` (a free-form dict never read back) is omitted.
* Python `float` progress values are modelled as `ℚ`; every progress value the
  engine ever assigns is a small decimal and the only operations are `+`, `*`,
  `/` on such constants, where rational arithmetic agrees with the float
  semantics for the comparisons made here (monotonicity, equality with 1.0).
* In `WorkflowEngine.__init__` the statement
  `from ..correction.corrector import Corrector` raises `ImportError`:
  `src/core/correction/corrector.py` defines only the string literal
  `CORRECTOR_CODE`, not a `Corrector` class.  The `except ImportError` arm
  therefore sets `validator`, `corrector` and `gemini_client` to `None`, and
  at run time `validate_output` / `apply_correction` always take their
  fallback branches.  The engine model embeds those fallback branches.
* The engine is deterministic; its execution is modelled as explicit state
  passing.  Besides the `WorkflowResult` under construction, the state carries
  an event trace recording every stage assignment, progress assignment, log
  append, task-status assignment, validation call and correction call, in
  program order.  Invariants over "the run's execution" are stated over this
  trace.
* Exceptions are modelled with `Except`.  With the engine's collaborators
  being internal demo code, the only reachable exception in
  `execute_workflow` is the `KeyError` raised by `config['name']` (line 455)
  when the config has no name; the `except Exception` handler (lines 513-517)
  is embedded on that path.
-/

namespace MRWA

/-- Workflow execution stages (`engine.py`, class `WorkflowStage`). -/
inductive WorkflowStage where
  | idle
  | ingesting
  | planning
  | executing
  | validating
  | correcting
  | completed
  | failed
deriving DecidableEq, Repr

/-- Individual task status (`engine.py`, class `TaskStatus`). -/
inductive TaskStatus where
  | pending
  | running
  | completed
  | failed
  | corrected
deriving DecidableEq, Repr

/-- Execution log entry (`engine.py`, class `LogEntry`); the wall-clock
timestamp and the free-form metadata dict are omitted (never read back). -/
structure LogEntry where
  level : String
  message : String
deriving DecidableEq, Repr

/-- Individual workflow task (`engine.py`, class `Task`); timestamps are
modelled as set / not set. -/
structure Task where
  id : String
  step_number : Nat
  description : String
  status : TaskStatus
  started_at : Option Unit := none
  completed_at : Option Unit := none
  error : Option String := none
  correction_applied : Bool := false
deriving DecidableEq, Repr

/-- Validation result (`engine.py`, class `ValidationResult`). -/
structure ValidationResult where
  passed : Bool
  issues : List String
  severity : String
  task_id : String
deriving DecidableEq, Repr

/-- Self-correction strategy record (`engine.py`, class `CorrectionStrategy`). -/
structure CorrectionStrategy where
  action : String
  strategy : String
  confidence : ℚ
  task_id : String
deriving DecidableEq, Repr

/-- Generated output artifact (`engine.py`, class `Artifact`). -/
structure Artifact where
  name : String
  type : String
  size : String
  verified : Bool
  path : Option String := none
  content_preview : Option String := none
deriving DecidableEq, Repr

/-- Complete workflow execution result (`engine.py`, class `WorkflowResult`);
`created_at` (a pure timestamp) is omitted, `completed_at` is set / not set. -/
structure WorkflowResult where
  workflow_id : String
  name : String
  stage : WorkflowStage
  progress : ℚ
  tasks : List Task
  logs : List LogEntry
  artifacts : List Artifact
  validation_failure : Option ValidationResult := none
  correction : Option CorrectionStrategy := none
  completed_at : Option Unit := none
deriving DecidableEq, Repr

/-- One input descriptor of the config (`execute_workflow` reads
`inp.get('type', 'unknown')` and `inp.get('name', 'unknown')`; a missing key
is `none`). -/
structure InputDesc where
  ty : Option String := none
  nm : Option String := none
deriving DecidableEq, Repr

/-- The workflow configuration mapping, restricted to the keys
`execute_workflow` reads: `config.get('name', ...)` / `config['name']`
(`none` models a missing key) and `config.get('inputs', [])` (a missing
`inputs` key behaves exactly like `[]`, so both are modelled by `[]`). -/
structure Config where
  name : Option String
  inputs : List InputDesc := []
deriving DecidableEq, Repr

/-- One observable step of the engine's execution: a stage assignment, a
progress assignment, a log append, a task-status assignment, a call of
`validate_output` (with the `passed` bit of its result) or a call of
`apply_correction`, in program order. -/
inductive Event where
  | stageSet (s : WorkflowStage)
  | progressSet (p : ℚ)
  | logged (e : LogEntry)
  | statusSet (task_id : String) (st : TaskStatus)
  | validateCalled (task_id : String) (passed : Bool)
  | correctionCalled (task_id : String)
deriving DecidableEq, Repr

/-- Engine state: the `WorkflowResult` under construction
(`self.current_workflow`) plus the event trace. -/
structure EngineState where
  run : WorkflowResult
  trace : List Event
deriving Repr

/-- `add_log` (engine.py lines 185-198): append a log entry (and trace it). -/
def addLog (level message : String) (s : EngineState) : EngineState :=
  { run := { s.run with logs := s.run.logs ++ [⟨level, message⟩] },
    trace := s.trace ++ [.logged ⟨level, message⟩] }

/-- Assignment to `self.current_workflow.stage` (traced). -/
def setStage (st : WorkflowStage) (s : EngineState) : EngineState :=
  { run := { s.run with stage := st }, trace := s.trace ++ [.stageSet st] }

/-- Assignment to `self.current_workflow.progress` (traced). -/
def setProgress (p : ℚ) (s : EngineState) : EngineState :=
  { run := { s.run with progress := p }, trace := s.trace ++ [.progressSet p] }

/-- A task-status assignment, recorded on the trace; the new task value itself
is kept by the caller (Python mutates the `Task` object in place). -/
def statusEvent (id : String) (st : TaskStatus) (s : EngineState) : EngineState :=
  { s with trace := s.trace ++ [.statusSet id st] }

/-- Write the (mutated) task back into `current_workflow.tasks` at index `i`
(in Python the list holds the mutated object already). -/
def storeTask (i : Nat) (t : Task) (s : EngineState) : EngineState :=
  { s with run := { s.run with tasks := s.run.tasks.set i t } }

/-- Assignment to `self.current_workflow.validation_failure`. -/
def setValidationFailure (v : Option ValidationResult) (s : EngineState) : EngineState :=
  { s with run := { s.run with validation_failure := v } }

/-- Assignment to `self.current_workflow.correction`. -/
def setCorrection (c : Option CorrectionStrategy) (s : EngineState) : EngineState :=
  { s with run := { s.run with correction := c } }

/-- Is `n` a prefix of `h`? (executable helper for Python's `in` on strings). -/
def charsPrefix : List Char → List Char → Bool
  | [], _ => true
  | _ :: _, [] => false
  | a :: n, b :: h => a == b && charsPrefix n h

/-- Python's `needle in hay` on strings: substring containment, by scanning
every suffix of `hay`. -/
def pyInStr (needle : List Char) : List Char → Bool
  | [] => charsPrefix needle []
  | b :: h => charsPrefix needle (b :: h) || pyInStr needle h

/-- `str.lower()`: Python's lowercasing, on the character list (agrees with
`Char.toLower` on the ASCII text the engine handles). -/
def pyLower (l : List Char) : List Char := l.map Char.toLower

/-- `'needle' in hay.lower()` as used by `generate_plan`. -/
def pyInLower (needle hay : String) : Bool := pyInStr needle.toList (pyLower hay.toList)

/-- The f-string `f"Starting workflow: {config['name']}"`. -/
def startMsg (nm : String) : String := "Starting workflow: " ++ nm

/-- The f-string `f"Ingesting {len(inputs)} input sources..."`. -/
def ingestCountMsg (n : Nat) : String := "Ingesting " ++ toString n ++ " input sources..."

/-- The f-string `f"Ingested {input_type}: {input_name}"` with the
`.get(..., 'unknown')` defaults. -/
def ingestedMsg (inp : InputDesc) : String :=
  "Ingested " ++ inp.ty.getD "unknown" ++ ": " ++ inp.nm.getD "unknown"

/-- The f-string `f"Generated {len(tasks)}-step workflow plan"`. -/
def genMsg (n : Nat) : String := "Generated " ++ toString n ++ "-step workflow plan"

/-- The f-string `f"Executing step {task.step_number}: {task.description}"`. -/
def execMsg (k : Nat) (d : String) : String :=
  "Executing step " ++ toString k ++ ": " ++ d

/-- The f-string `f"Validating step {task.step_number} output..."`. -/
def valMsg (k : Nat) : String := "Validating step " ++ toString k ++ " output..."

/-- The f-string `f"Step {task.step_number} validation passed"`. -/
def valPassMsg (k : Nat) : String := "Step " ++ toString k ++ " validation passed"

/-- The three 5-step plans of `generate_plan` (engine.py lines 222-245),
selected by case-insensitive substring tests on the task type. -/
def planSteps (task_type : String) : List String :=
  if pyInLower "research" task_type || pyInLower "synthesis" task_type then
    [ "Parse and extract content from all input sources",
      "Identify key themes and patterns using NLP analysis",
      "Cross-reference findings across all sources",
      "Generate comprehensive synthesis report with citations",
      "Validate output completeness and citation accuracy" ]
  else if pyInLower "code" task_type || pyInLower "analysis" task_type then
    [ "Analyze code structure and dependencies",
      "Detect code smells and anti-patterns",
      "Evaluate security vulnerabilities",
      "Generate improvement recommendations",
      "Validate analysis completeness" ]
  else
    [ "Process and normalize input data",
      "Apply analysis algorithms",
      "Generate insights and findings",
      "Create output artifacts",
      "Validate results quality" ]

/-- `for i, description in enumerate(plan_steps, 1)` (engine.py lines 247-255):
build the `Task` records with ids `task_1`, `task_2`, ... -/
def mkTasksFrom : Nat → List String → List Task
  | _, [] => []
  | i, d :: rest =>
      { id := "task_" ++ toString i, step_number := i, description := d,
        status := .pending } :: mkTasksFrom (i + 1) rest

/-- The task list `generate_plan` builds from its plan steps. -/
def mkTasks (steps : List String) : List Task := mkTasksFrom 1 steps

/-- `generate_plan` (engine.py lines 200-262): logs, then builds the plan from
`config.get('name', 'workflow')`; the `inputs` list is only used for the log
metadata. -/
def generatePlan (cfg : Config) (s : EngineState) : List Task × EngineState :=
  let s := addLog "info" "Gemini 3 analyzing task requirements..." s
  let task_type := cfg.name.getD "workflow"
  let tasks := mkTasks (planSteps task_type)
  let s := addLog "success" (genMsg tasks.length) s
  (tasks, s)

/-- The dict returned by `execute_task`: either the failure record
with success False and the error text, or the mock output with the task id,
the result text and the constant processed-data marker. -/
inductive TaskOut where
  | failure (error : String)
  | output (task_id : String) (result : String)
deriving DecidableEq, Repr

/-- `execute_task` (engine.py lines 264-300).  The `inputs` argument is
accepted and ignored, exactly as in the source.  Step 3 fails with
"Edge case not handled"; every other step completes. -/
def executeTask (t : Task) (inputs : List InputDesc) (s : EngineState) :
    Task × TaskOut × EngineState :=
  let _ := inputs
  let t := { t with status := .running, started_at := some () }
  let s := statusEvent t.id .running s
  let s := addLog "info" (execMsg t.step_number t.description) s
  if t.step_number = 3 then
    let t := { t with status := .failed, error := some "Edge case not handled" }
    (t, .failure "Edge case not handled", statusEvent t.id .failed s)
  else
    let t := { t with status := .completed, completed_at := some () }
    (t, .output t.id ("Completed: " ++ t.description), statusEvent t.id .completed s)

/-- `validate_output` (engine.py lines 302-340), fallback branch
(`self.validator` is `None`, see the module comment).  The task output is
ignored entirely: step 3 fails with a fixed issue at severity "medium",
every other step passes. -/
def validateOutput (t : Task) (o : TaskOut) (s : EngineState) :
    ValidationResult × EngineState :=
  let _ := o
  let s := addLog "info" (valMsg t.step_number) s
  if t.step_number = 3 then
    let r : ValidationResult :=
      ⟨false, ["Missing error handling for edge case: empty citation list"],
        "medium", t.id⟩
    let s := addLog "error"
      ("Validation FAILED: Missing error handling for edge case: empty citation list") s
    (r, { s with trace := s.trace ++ [.validateCalled t.id false] })
  else
    let r : ValidationResult := ⟨true, [], "none", t.id⟩
    let s := addLog "success" (valPassMsg t.step_number) s
    (r, { s with trace := s.trace ++ [.validateCalled t.id true] })

/-- The fixed fallback correction record of `apply_correction`
(engine.py lines 362-367). -/
def fallbackCorrection (id : String) : CorrectionStrategy :=
  ⟨"Add null-check and default handling for citation lists",
    "inject_defensive_code", 95 / 100, id⟩

/-- `apply_correction` (engine.py lines 342-384), fallback branch
(`self.corrector` is `None`).  It unconditionally builds one fixed
`inject_defensive_code` strategy and marks the task `CORRECTED`; no
re-execution and no re-validation happens. -/
def applyCorrection (t : Task) (v : ValidationResult) (s : EngineState) :
    Task × CorrectionStrategy × EngineState :=
  let _ := v
  let s := { s with trace := s.trace ++ [.correctionCalled t.id] }
  let s := addLog "warning" "Initiating autonomous self-correction..." s
  let c : CorrectionStrategy := fallbackCorrection t.id
  let s := addLog "warning" ("Correction strategy: " ++ c.action) s
  let s := addLog "info" "Re-executing with correction..." s
  let t := { t with status := .corrected, correction_applied := true,
                    completed_at := some () }
  let s := statusEvent t.id .corrected s
  let s := addLog "success" "Validation PASSED after correction" s
  (t, c, s)

/-- The three fixed artifacts of `generate_artifacts` (engine.py lines 395-417). -/
def theArtifacts : List Artifact :=
  [ { name := "research_synthesis_report.pdf", type := "document",
      size := "2.4 MB", verified := true,
      content_preview := some "# Research Synthesis Report\n\nComplete analysis with citations..." },
    { name := "key_findings.json", type := "data", size := "156 KB",
      verified := true,
      content_preview := some "\x7b\"themes\": [\"AI\", \"ML\"], \"insights\": [...]\x7d" },
    { name := "execution_log.txt", type := "log", size := "45 KB",
      verified := true,
      content_preview := some "[00:00:00] Workflow started\n[00:00:01] Planning phase..." } ]

/-- `generate_artifacts` (engine.py lines 386-425). -/
def generateArtifacts (s : EngineState) : List Artifact × EngineState :=
  let s := addLog "info" "Generating verified artifacts..." s
  let arts : List Artifact := theArtifacts
  let s := arts.foldl (fun s a => addLog "success" ("Generated artifact: " ++ a.name) s) s
  (arts, s)

/-- `0.3 + (0.6 * (i + 1) / len(tasks))` (engine.py line 496), with
`k = i + 1` tasks finished out of `total`. -/
def progressFormula (k total : Nat) : ℚ := 3 / 10 + 6 / 10 * (k : ℚ) / (total : ℚ)

/-- The body of the per-task loop of `execute_workflow`
(engine.py lines 477-496) for the loop variable `task` (here `t`, the task
value at index `i`; Python mutates the object in place, which the model
reflects by storing the updated record back at index `i`). -/
def processTask (total i : Nat) (inputs : List InputDesc) (t : Task)
    (s : EngineState) : EngineState :=
  let (t, o, s) := executeTask t inputs s
  let s := storeTask i t s
  let s := setStage .validating s
  let (v, s) := validateOutput t o s
  let s :=
    if v.passed then s
    else
      let s := setStage .correcting s
      let s := setValidationFailure (some v) s
      let (t, c, s) := applyCorrection t v s
      let s := storeTask i t s
      let s := setCorrection (some c) s
      setValidationFailure none s
  let s := setStage .executing s
  setProgress (progressFormula (i + 1) total) s

/-- `for i, task in enumerate(tasks)`: run the loop body over the planned
tasks in order, counting the index from `i`. -/
def processTasks (total : Nat) (inputs : List InputDesc) :
    Nat → List Task → EngineState → EngineState
  | _, [], s => s
  | i, t :: rest, s =>
      processTasks total inputs (i + 1) rest (processTask total i inputs t s)

/-- The exception re-raised by `execute_workflow`'s `except` handler.  The code
itself only ever re-raises the original exception — here the `KeyError` from
`config['name']`.  The `workflowExecutionError` wrapper does not exist
anywhere in the source; the constructor is modelled from the spec
(`WorkflowExecutionError` wrapping the cause) solely so that the spec's
claimed contract can be stated and compared against the code. -/
inductive RunError where
  | keyError (key : String)
  | workflowExecutionError (cause : RunError)
deriving DecidableEq, Repr

/-- The initial `WorkflowResult` (engine.py lines 442-450); the wall-clock
workflow id is modelled as a fixed string. -/
def initState (cfg : Config) : EngineState :=
  { run := { workflow_id := "wf_run", name := cfg.name.getD "Unnamed Workflow",
             stage := .idle, progress := 0, tasks := [], logs := [],
             artifacts := [] },
    trace := [] }

/-- `execute_workflow` (engine.py lines 427-519).  On a config without a
`name` key the f-string `config['name']` at line 455 raises `KeyError('name')`
(`str` of which is `'name'`), which the handler logs before re-raising; with a
name present the demo run is exception-free and returns the completed run. -/
def executeWorkflow (cfg : Config) : Except RunError Unit × EngineState :=
  let s := initState cfg
  let s := setStage .ingesting s
  match cfg.name with
  | none =>
    let s := setStage .failed s
    let s := addLog "error" "Workflow failed: 'name'" s
    (.error (.keyError "name"), s)
  | some nm =>
    let s := addLog "info" (startMsg nm) s
    let inputs := cfg.inputs
    let s := addLog "info" (ingestCountMsg inputs.length) s
    let s := inputs.foldl (fun s inp => addLog "success" (ingestedMsg inp) s) s
    let s := setProgress (2 / 10) s
    let s := setStage .planning s
    let (tasks, s) := generatePlan cfg s
    let s := { s with run := { s.run with tasks := tasks } }
    let s := setProgress (3 / 10) s
    let s := setStage .executing s
    let s := processTasks tasks.length inputs 0 tasks s
    let s := setStage .completed s
    let s := setProgress (9 / 10) s
    let (arts, s) := generateArtifacts s
    let s := { s with run := { s.run with artifacts := arts } }
    let s := setProgress 1 s
    let s := { s with run := { s.run with completed_at := some () } }
    let s := addLog "success" "Workflow completed successfully" s
    (.ok (), s)

/-- The value `run(config)` surfaces to the caller. -/
def runResult (cfg : Config) : Except RunError Unit := (executeWorkflow cfg).1

/-- The final `WorkflowResult` (the engine's `current_workflow` after the
call, whether or not it raised). -/
def finalRun (cfg : Config) : WorkflowResult := (executeWorkflow cfg).2.run

/-- The event trace of the run. -/
def runTrace (cfg : Config) : List Event := (executeWorkflow cfg).2.trace



/-- The progress values assigned during the run, in order. -/
def progressList (tr : List Event) : List ℚ :=
  tr.filterMap fun e => match e with
    | .progressSet p => some p
    | _ => none

/-- The stages assigned during the run, in order (the stage transitions:
every assignment in the source changes the stage). -/
def stageList (tr : List Event) : List WorkflowStage :=
  tr.filterMap fun e => match e with
    | .stageSet s => some s
    | _ => none

/-- The results (`passed` bit) of the `validate_output` calls made for the
given task, in order. -/
def validationsOf (id : String) (tr : List Event) : List Bool :=
  tr.filterMap fun e => match e with
    | .validateCalled i p => if i = id then some p else none
    | _ => none

/-- The `apply_correction` calls made for the given task. -/
def correctionCallsOf (id : String) (tr : List Event) : List String :=
  tr.filterMap fun e => match e with
    | .correctionCalled i => if i = id then some i else none
    | _ => none

/-- How many times `apply_correction` was called for the given task. -/
def correctionsOf (id : String) (tr : List Event) : Nat :=
  (correctionCallsOf id tr).length

/-- The statuses assigned to the given task, in order. -/
def statusesOf (id : String) (tr : List Event) : List TaskStatus :=
  tr.filterMap fun e => match e with
    | .statusSet i st => if i = id then some st else none
    | _ => none

/-- Whether the given task's first validation failed. -/
def firstValidationFailed (id : String) (tr : List Event) : Bool :=
  match validationsOf id tr with
  | false :: _ => true
  | _ => false

/-- The ids of the tasks whose status was ever assigned (one entry per
assignment; duplicates are harmless in an all-quantified check). -/
def taskIds (tr : List Event) : List String :=
  tr.filterMap fun e => match e with
    | .statusSet i _ => some i
    | _ => none

/-- Forward order on task statuses: `PENDING` before `RUNNING` before the
first terminal outcome (`COMPLETED`/`FAILED`) before `CORRECTED` (the
completed-equivalent terminal state a correction produces). -/
def statusRank : TaskStatus → Nat
  | .pending => 0
  | .running => 1
  | .completed => 2
  | .failed => 2
  | .corrected => 3

/-- Whether a task status is terminal. -/
def TaskStatus.isTerminal : TaskStatus → Bool
  | .completed => true
  | .failed => true
  | .corrected => true
  | _ => false

/-- Does the status sequence move strictly forward in `statusRank` starting
from `prev`? -/
def forwardChain : TaskStatus → List TaskStatus → Bool
  | _, [] => true
  | prev, s :: rest =>
      decide (statusRank prev < statusRank s) && forwardChain s rest

/-- Does the status list contain the given status? -/
def containsStatus (x : TaskStatus) : List TaskStatus → Bool
  | [] => false
  | a :: r => decide (a = x) || containsStatus x r

/-- A single task's status history (starting from its initial `PENDING`) moves
strictly forward in `statusRank` — in particular it never regresses and never
re-enters `RUNNING` after `FAILED` — and if it ever was `FAILED` it ends in
`CORRECTED` or `FAILED`. -/
def taskTraceOk (l : List TaskStatus) : Bool :=
  forwardChain .pending l &&
  (!containsStatus .failed l ||
    match l.getLast? with
    | some .corrected => true
    | some .failed => true
    | _ => false)

/-- Every task mentioned on the trace has a forward-only status history. -/
def tasksForwardOnly (tr : List Event) : Bool :=
  (taskIds tr).all fun id => taskTraceOk (statusesOf id tr)

/-- Is a log entry appended before the next stage assignment (or the end of
the trace is reached without one)? -/
def logBeforeNextStage : List Event → Bool
  | [] => false
  | .logged _ :: _ => true
  | .stageSet _ :: _ => false
  | _ :: rest => logBeforeNextStage rest

/-- Every stage transition is followed by at least one log entry before the
next stage transition. -/
def everyTransitionLogged : List Event → Bool
  | [] => true
  | .stageSet _ :: rest => logBeforeNextStage rest && everyTransitionLogged rest
  | _ :: rest => everyTransitionLogged rest

/-- At least one occupancy of the given stage has a log entry appended while
the run is in that stage. -/
def stageEverLogged (st : WorkflowStage) : List Event → Bool
  | [] => false
  | .stageSet s :: rest => (decide (s = st) && logBeforeNextStage rest) || stageEverLogged st rest
  | _ :: rest => stageEverLogged st rest

/-- Every stage the run ever enters gets at least one log entry during some
occupancy of that stage. -/
def everyVisitedStageLogged (tr : List Event) : Bool :=
  (stageList tr).all fun st => stageEverLogged st tr




/-- The log entries among a trace's events, in order. -/
def logList (tr : List Event) : List LogEntry :=
  tr.filterMap fun e => match e with
    | .logged l => some l
    | _ => none

/-- The per-input ingestion log events of `execute_workflow`. -/
def ingestEvents (inputs : List InputDesc) : List Event :=
  inputs.map fun inp => .logged ⟨"success", ingestedMsg inp⟩

/-- The per-input ingestion log entries of `execute_workflow`. -/
def ingestLogEntries (inputs : List InputDesc) : List LogEntry :=
  inputs.map fun inp => ⟨"success", ingestedMsg inp⟩

theorem logList_ingestEvents (inputs : List InputDesc) :
    logList (ingestEvents inputs) = ingestLogEntries inputs := by
  induction inputs with
  | nil => rfl
  | cons a l ih =>
      simp only [ingestEvents, ingestLogEntries, List.map_cons, logList,
        List.filterMap_cons] at ih ⊢
      simp [ih]

theorem foldl_ingest (inputs : List InputDesc) (s : EngineState) :
    inputs.foldl (fun s inp => addLog "success" (ingestedMsg inp) s) s =
      { run := { s.run with logs := s.run.logs ++ ingestLogEntries inputs },
        trace := s.trace ++ ingestEvents inputs } := by
  induction inputs generalizing s with
  | nil => simp [ingestLogEntries, ingestEvents]
  | cons a l ih =>
      rw [List.foldl_cons, ih]
      simp [addLog, ingestLogEntries, ingestEvents, List.append_assoc]

theorem processTask_notThree (total i : Nat) (inputs : List InputDesc)
    (t : Task) (h3 : ¬ t.step_number = 3) (s : EngineState) :
    processTask total i inputs t s =
      { run := { s.run with
          tasks := s.run.tasks.set i
            { t with status := .completed, started_at := some (),
                     completed_at := some () },
          stage := .executing,
          progress := progressFormula (i + 1) total,
          logs := s.run.logs ++
            [ ⟨"info", execMsg t.step_number t.description⟩,
              ⟨"info", valMsg t.step_number⟩,
              ⟨"success", valPassMsg t.step_number⟩ ] },
        trace := s.trace ++
          [ .statusSet t.id .running,
            .logged ⟨"info", execMsg t.step_number t.description⟩,
            .statusSet t.id .completed,
            .stageSet .validating,
            .logged ⟨"info", valMsg t.step_number⟩,
            .logged ⟨"success", valPassMsg t.step_number⟩,
            .validateCalled t.id true,
            .stageSet .executing,
            .progressSet (progressFormula (i + 1) total) ] } := by
  simp [processTask, executeTask, validateOutput, storeTask, setStage,
    setProgress, statusEvent, addLog, h3]

theorem processTask_three (total i : Nat) (inputs : List InputDesc)
    (t : Task) (h3 : t.step_number = 3) (s : EngineState) :
    processTask total i inputs t s =
      { run := { s.run with
          tasks := s.run.tasks.set i
            { t with status := .corrected, started_at := some (),
                     completed_at := some (),
                     error := some "Edge case not handled",
                     correction_applied := true },
          stage := .executing,
          progress := progressFormula (i + 1) total,
          logs := s.run.logs ++
            [ ⟨"info", execMsg 3 t.description⟩,
              ⟨"info", valMsg 3⟩,
              ⟨"error", "Validation FAILED: Missing error handling for edge case: empty citation list"⟩,
              ⟨"warning", "Initiating autonomous self-correction..."⟩,
              ⟨"warning", "Correction strategy: " ++ "Add null-check and default handling for citation lists"⟩,
              ⟨"info", "Re-executing with correction..."⟩,
              ⟨"success", "Validation PASSED after correction"⟩ ],
          validation_failure := none,
          correction := some (fallbackCorrection t.id) },
        trace := s.trace ++
          [ .statusSet t.id .running,
            .logged ⟨"info", execMsg 3 t.description⟩,
            .statusSet t.id .failed,
            .stageSet .validating,
            .logged ⟨"info", valMsg 3⟩,
            .logged ⟨"error", "Validation FAILED: Missing error handling for edge case: empty citation list"⟩,
            .validateCalled t.id false,
            .stageSet .correcting,
            .correctionCalled t.id,
            .logged ⟨"warning", "Initiating autonomous self-correction..."⟩,
            .logged ⟨"warning", "Correction strategy: " ++ "Add null-check and default handling for citation lists"⟩,
            .logged ⟨"info", "Re-executing with correction..."⟩,
            .statusSet t.id .corrected,
            .logged ⟨"success", "Validation PASSED after correction"⟩,
            .stageSet .executing,
            .progressSet (progressFormula (i + 1) total) ] } := by
  simp [processTask, executeTask, validateOutput, applyCorrection,
    fallbackCorrection, storeTask, setStage, setProgress, statusEvent,
    addLog, setValidationFailure, setCorrection, h3, List.set_set]



theorem logList_nil : logList [] = [] := rfl

theorem logList_append (a b : List Event) :
    logList (a ++ b) = logList a ++ logList b := by
  simp [logList, List.filterMap_append]

theorem logList_cons_logged (l : LogEntry) (tr : List Event) :
    logList (.logged l :: tr) = l :: logList tr := by simp [logList]

theorem logList_cons_stageSet (x : WorkflowStage) (tr : List Event) :
    logList (.stageSet x :: tr) = logList tr := by simp [logList]

theorem logList_cons_progressSet (p : ℚ) (tr : List Event) :
    logList (.progressSet p :: tr) = logList tr := by simp [logList]

theorem logList_cons_statusSet (i : String) (st : TaskStatus) (tr : List Event) :
    logList (.statusSet i st :: tr) = logList tr := by simp [logList]

theorem logList_cons_validateCalled (i : String) (p : Bool) (tr : List Event) :
    logList (.validateCalled i p :: tr) = logList tr := by simp [logList]

theorem logList_cons_correctionCalled (i : String) (tr : List Event) :
    logList (.correctionCalled i :: tr) = logList tr := by simp [logList]



/-- Trace block of the per-task loop for a step `k ≠ 3` with description `d`. -/
def taskBlockOk (k : Nat) (d : String) : List Event :=
  [ .statusSet ("task_" ++ toString k) .running,
    .logged ⟨"info", execMsg k d⟩,
    .statusSet ("task_" ++ toString k) .completed,
    .stageSet .validating,
    .logged ⟨"info", valMsg k⟩,
    .logged ⟨"success", valPassMsg k⟩,
    .validateCalled ("task_" ++ toString k) true,
    .stageSet .executing,
    .progressSet (progressFormula k 5) ]

/-- Trace block of the per-task loop for step 3 (failed execution, failed
validation, one unconditional correction). -/
def taskBlock3 (d : String) : List Event :=
  [ .statusSet ("task_" ++ toString 3) .running,
    .logged ⟨"info", execMsg 3 d⟩,
    .statusSet ("task_" ++ toString 3) .failed,
    .stageSet .validating,
    .logged ⟨"info", valMsg 3⟩,
    .logged ⟨"error", "Validation FAILED: Missing error handling for edge case: empty citation list"⟩,
    .validateCalled ("task_" ++ toString 3) false,
    .stageSet .correcting,
    .correctionCalled ("task_" ++ toString 3),
    .logged ⟨"warning", "Initiating autonomous self-correction..."⟩,
    .logged ⟨"warning", "Correction strategy: " ++ "Add null-check and default handling for citation lists"⟩,
    .logged ⟨"info", "Re-executing with correction..."⟩,
    .statusSet ("task_" ++ toString 3) .corrected,
    .logged ⟨"success", "Validation PASSED after correction"⟩,
    .stageSet .executing,
    .progressSet (progressFormula 3 5) ]

/-- The full event trace of a run whose config carries name `nm`, for the
five plan-step descriptions the name selects. -/
def demoTrace (nm : String) (inputs : List InputDesc)
    (d1 d2 d3 d4 d5 : String) : List Event :=
  [ .stageSet .ingesting,
    .logged ⟨"info", startMsg nm⟩,
    .logged ⟨"info", ingestCountMsg inputs.length⟩ ]
  ++ ingestEvents inputs
  ++ [ .progressSet (2 / 10),
    .stageSet .planning,
    .logged ⟨"info", "Gemini 3 analyzing task requirements..."⟩,
    .logged ⟨"success", genMsg 5⟩,
    .progressSet (3 / 10),
    .stageSet .executing ]
  ++ taskBlockOk 1 d1 ++ taskBlockOk 2 d2 ++ taskBlock3 d3
  ++ taskBlockOk 4 d4 ++ taskBlockOk 5 d5
  ++ [ .stageSet .completed,
    .progressSet (9 / 10),
    .logged ⟨"info", "Generating verified artifacts..."⟩,
    .logged ⟨"success", "Generated artifact: " ++ "research_synthesis_report.pdf"⟩,
    .logged ⟨"success", "Generated artifact: " ++ "key_findings.json"⟩,
    .logged ⟨"success", "Generated artifact: " ++ "execution_log.txt"⟩,
    .progressSet 1,
    .logged ⟨"success", "Workflow completed successfully"⟩ ]

/-- Final state of a task with step `k ≠ 3`. -/
def demoTaskDone (k : Nat) (d : String) : Task :=
  { id := "task_" ++ toString k, step_number := k, description := d,
    status := .completed, started_at := some (), completed_at := some (),
    error := none, correction_applied := false }

/-- Final state of the step-3 task. -/
def demoTask3 (d : String) : Task :=
  { id := "task_" ++ toString 3, step_number := 3, description := d,
    status := .corrected, started_at := some (), completed_at := some (),
    error := some "Edge case not handled", correction_applied := true }

/-- The final `WorkflowResult` of a run whose config carries a name. -/
def demoRun (nm : String) (inputs : List InputDesc)
    (d1 d2 d3 d4 d5 : String) : WorkflowResult :=
  { workflow_id := "wf_run", name := nm, stage := .completed, progress := 1,
    tasks := [demoTaskDone 1 d1, demoTaskDone 2 d2, demoTask3 d3,
              demoTaskDone 4 d4, demoTaskDone 5 d5],
    logs := logList (demoTrace nm inputs d1 d2 d3 d4 d5),
    artifacts := theArtifacts,
    validation_failure := none,
    correction := some (fallbackCorrection ("task_" ++ toString 3)),
    completed_at := some () }

theorem planSteps_shape (t : String) :
    ∃ d1 d2 d3 d4 d5, planSteps t = [d1, d2, d3, d4, d5] := by
  unfold planSteps
  split
  · exact ⟨_, _, _, _, _, rfl⟩
  · split
    · exact ⟨_, _, _, _, _, rfl⟩
    · exact ⟨_, _, _, _, _, rfl⟩

set_option maxHeartbeats 2000000 in
/-- The closed form of a named run: `execute_workflow` returns normally with
the fully determined final state and trace. -/
theorem executeWorkflow_some (nm : String) (inputs : List InputDesc)
    (d1 d2 d3 d4 d5 : String) (h : planSteps nm = [d1, d2, d3, d4, d5]) :
    executeWorkflow ⟨some nm, inputs⟩ =
      (.ok (), ⟨demoRun nm inputs d1 d2 d3 d4 d5,
                demoTrace nm inputs d1 d2 d3 d4 d5⟩) := by
  simp only [executeWorkflow, initState, Option.getD, generatePlan, mkTasks, h,
    mkTasksFrom, foldl_ingest]
  simp only [List.length_cons, List.length_nil, processTasks]
  simp only [Nat.reduceAdd, Nat.zero_add]
  simp [processTask_notThree, processTask_three]
  simp [generateArtifacts, theArtifacts, addLog, setStage, setProgress,
    demoRun, demoTrace, taskBlockOk, taskBlock3, demoTaskDone, demoTask3,
    logList_nil, logList_append, logList_cons_logged, logList_cons_stageSet,
    logList_cons_progressSet, logList_cons_statusSet,
    logList_cons_validateCalled, logList_cons_correctionCalled,
    logList_ingestEvents, fallbackCorrection, List.append_assoc]




/-- The closed form of a run whose config has no `name` key: `config['name']`
raises, the handler marks the run failed and logs, and the error propagates. -/
theorem executeWorkflow_none (inputs : List InputDesc) :
    executeWorkflow ⟨none, inputs⟩ =
      (.error (.keyError "name"),
       ⟨{ workflow_id := "wf_run", name := "Unnamed Workflow",
          stage := .failed, progress := 0, tasks := [],
          logs := [⟨"error", "Workflow failed: 'name'"⟩], artifacts := [],
          validation_failure := none, correction := none,
          completed_at := none },
        [.stageSet .ingesting, .stageSet .failed,
         .logged ⟨"error", "Workflow failed: 'name'"⟩]⟩) := rfl

theorem progressList_ingestEvents (inputs : List InputDesc) :
    progressList (ingestEvents inputs) = [] := by
  simp [progressList, ingestEvents]

theorem stageList_ingestEvents (inputs : List InputDesc) :
    stageList (ingestEvents inputs) = [] := by
  simp [stageList, ingestEvents]

theorem validationsOf_ingestEvents (id : String) (inputs : List InputDesc) :
    validationsOf id (ingestEvents inputs) = [] := by
  simp [validationsOf, ingestEvents]

theorem statusesOf_ingestEvents (id : String) (inputs : List InputDesc) :
    statusesOf id (ingestEvents inputs) = [] := by
  simp [statusesOf, ingestEvents]

theorem taskId_1 : "task_" ++ toString (1 : Nat) = "task_1" := rfl

theorem taskId_2 : "task_" ++ toString (2 : Nat) = "task_2" := rfl

theorem taskId_3 : "task_" ++ toString (3 : Nat) = "task_3" := rfl

theorem taskId_4 : "task_" ++ toString (4 : Nat) = "task_4" := rfl

theorem taskId_5 : "task_" ++ toString (5 : Nat) = "task_5" := rfl

/-- C10: if the config mapping passed to `execute_workflow` has no `name`
key, the call raises a `KeyError` after creating a run named
"Unnamed Workflow": the run is left with stage `FAILED`, the failure is
logged at error level, and no tasks are ever created. -/
theorem c10_missing_name_key (cfg : Config) (h : cfg.name = none) :
    runResult cfg = .error (.keyError "name") ∧
    (finalRun cfg).name = "Unnamed Workflow" ∧
    (finalRun cfg).stage = .failed ∧
    (finalRun cfg).tasks = [] ∧
    (finalRun cfg).logs = [⟨"error", "Workflow failed: 'name'"⟩] := by
  obtain ⟨n, inputs⟩ := cfg
  cases n with
  | none => exact ⟨rfl, rfl, rfl, rfl, rfl⟩
  | some nm => exact absurd h (by simp)

theorem c10_missing_name_key_witness :
    (⟨none, []⟩ : Config).name = none ∧
    (runResult ⟨none, []⟩ = .error (.keyError "name") ∧
     (finalRun ⟨none, []⟩).name = "Unnamed Workflow" ∧
     (finalRun ⟨none, []⟩).stage = .failed ∧
     (finalRun ⟨none, []⟩).tasks = [] ∧
     (finalRun ⟨none, []⟩).logs = [⟨"error", "Workflow failed: 'name'"⟩]) :=
  ⟨rfl, c10_missing_name_key ⟨none, []⟩ rfl⟩

/-- C5, counterexample: the run on a nameless config raises, but what the
caller receives is the original `KeyError` itself, not a
`WorkflowExecutionError` wrapping the cause — no such wrapper exists in the
code (`raise` at engine.py line 517 re-raises the caught exception). -/
theorem c5_counterexample :
    runResult ⟨none, []⟩ = .error (.keyError "name") ∧
    ∀ cause, runResult ⟨none, []⟩ ≠ .error (.workflowExecutionError cause) := by
  refine ⟨rfl, fun cause hc => ?_⟩
  have h1 : (Except.error (RunError.keyError "name") : Except RunError Unit) =
      .error (.workflowExecutionError cause) := hc
  exact RunError.noConfusion (Except.error.inj h1)

/-- C5 (amended): a collaborator error is logged at error level, sets the
run's stage to `FAILED`, and is re-raised to the caller unchanged (not
wrapped in any `WorkflowExecutionError`); it is the only error `run()`
surfaces, and validation/correction issues never escape as exceptions — on
every named config the call returns normally even though task 3's validation
fails, with the failure absorbed into the run's state and log. -/
theorem c5_error_propagation (cfg : Config) :
    (∀ nm, cfg.name = some nm →
      runResult cfg = .ok () ∧
      firstValidationFailed "task_3" (runTrace cfg) = true ∧
      (finalRun cfg).correction = some (fallbackCorrection "task_3")) ∧
    (cfg.name = none →
      runResult cfg = .error (.keyError "name") ∧
      (finalRun cfg).stage = .failed ∧
      ((finalRun cfg).logs.any fun e => e.level = "error") = true) := by
  obtain ⟨n, inputs⟩ := cfg
  cases n with
  | none =>
      refine ⟨fun nm hnm => absurd hnm (by simp), fun _ => ⟨rfl, rfl, rfl⟩⟩
  | some nm =>
      refine ⟨fun nm' hnm' => ?_, fun hc => absurd hc (by simp)⟩
      obtain ⟨d1, d2, d3, d4, d5, h⟩ := planSteps_shape nm
      have hE := executeWorkflow_some nm inputs d1 d2 d3 d4 d5 h
      refine ⟨by simp [runResult, hE], ?_, ?_⟩
      · have hv : validationsOf "task_3" (runTrace ⟨some nm, inputs⟩) = [false] := by
          simp [runTrace, hE, demoTrace, taskBlockOk, taskBlock3, validationsOf,
            List.filterMap_append, ingestEvents, taskId_1,
            taskId_2, taskId_3, taskId_4, taskId_5]
        simp [firstValidationFailed, hv]
      · simp [finalRun, hE, demoRun, taskId_3]

theorem c5_error_propagation_witness :
    ((⟨some "demo", []⟩ : Config).name = some "demo" ∧
      runResult ⟨some "demo", []⟩ = .ok () ∧
      firstValidationFailed "task_3" (runTrace ⟨some "demo", []⟩) = true ∧
      (finalRun ⟨some "demo", []⟩).correction = some (fallbackCorrection "task_3")) ∧
    ((⟨none, []⟩ : Config).name = none ∧
      runResult ⟨none, []⟩ = .error (.keyError "name") ∧
      (finalRun ⟨none, []⟩).stage = .failed ∧
      ((finalRun ⟨none, []⟩).logs.any fun e => e.level = "error") = true) :=
  ⟨⟨rfl, (c5_error_propagation ⟨some "demo", []⟩).1 "demo" rfl⟩,
   ⟨rfl, (c5_error_propagation ⟨none, []⟩).2 rfl⟩⟩

/-- C3: within one workflow run, progress is monotonically non-decreasing
over the run's execution; the final progress is exactly 1.0 iff the final
stage is `COMPLETED`; and on every named config the sequence of progress
assignments is 0.2, 0.3, then `0.3 + 0.6 * (k / total)` after each of the
`total = 5` finished tasks, then 0.9 and 1.0. -/
theorem c3_progress_monotone (cfg : Config) :
    List.Chain' (· ≤ ·) (0 :: progressList (runTrace cfg)) ∧
    ((finalRun cfg).progress = 1 ↔ (finalRun cfg).stage = .completed) ∧
    (∀ nm, cfg.name = some nm →
      progressList (runTrace cfg) =
        [2 / 10, 3 / 10, progressFormula 1 5, progressFormula 2 5,
         progressFormula 3 5, progressFormula 4 5, progressFormula 5 5,
         9 / 10, 1]) := by
  obtain ⟨n, inputs⟩ := cfg
  cases n with
  | none =>
      refine ⟨?_, ?_, fun nm hnm => absurd hnm (by simp)⟩
      · simp [runTrace, executeWorkflow_none inputs, progressList]
      · exact iff_of_false (by norm_num [finalRun, executeWorkflow_none inputs])
          (by simp [finalRun, executeWorkflow_none inputs])
  | some nm =>
      obtain ⟨d1, d2, d3, d4, d5, h⟩ := planSteps_shape nm
      have hE := executeWorkflow_some nm inputs d1 d2 d3 d4 d5 h
      have hP : progressList (runTrace ⟨some nm, inputs⟩) =
          [2 / 10, 3 / 10, progressFormula 1 5, progressFormula 2 5,
           progressFormula 3 5, progressFormula 4 5, progressFormula 5 5,
           9 / 10, 1] := by
        simp [runTrace, hE, demoTrace, taskBlockOk, taskBlock3, progressList,
          List.filterMap_append, ingestEvents]
      refine ⟨?_, ?_, fun nm' hnm' => hP⟩
      · rw [hP]
        norm_num [List.chain'_cons, List.chain'_singleton, progressFormula]
      · simp [finalRun, hE, demoRun]

theorem c3_progress_monotone_witness :
    progressList (runTrace ⟨some "demo", []⟩) =
      [2 / 10, 3 / 10, progressFormula 1 5, progressFormula 2 5,
       progressFormula 3 5, progressFormula 4 5, progressFormula 5 5,
       9 / 10, 1] :=
  (c3_progress_monotone ⟨some "demo", []⟩).2.2 "demo" rfl




theorem progressList_nil : progressList [] = [] := rfl

theorem progressList_append (a b : List Event) :
    progressList (a ++ b) = progressList a ++ progressList b := by
  simp [progressList, List.filterMap_append]

theorem progressList_cons_stageSet (x : WorkflowStage) (tr : List Event) :
    progressList (.stageSet x :: tr) = progressList tr := by simp [progressList]

theorem progressList_cons_progressSet (p : ℚ) (tr : List Event) :
    progressList (.progressSet p :: tr) = p :: progressList tr := by simp [progressList]

theorem progressList_cons_logged (l : LogEntry) (tr : List Event) :
    progressList (.logged l :: tr) = progressList tr := by simp [progressList]

theorem progressList_cons_statusSet (i : String) (st : TaskStatus) (tr : List Event) :
    progressList (.statusSet i st :: tr) = progressList tr := by simp [progressList]

theorem progressList_cons_validateCalled (i : String) (b : Bool) (tr : List Event) :
    progressList (.validateCalled i b :: tr) = progressList tr := by simp [progressList]

theorem progressList_cons_correctionCalled (i : String) (tr : List Event) :
    progressList (.correctionCalled i :: tr) = progressList tr := by simp [progressList]

theorem stageList_nil : stageList [] = [] := rfl

theorem stageList_append (a b : List Event) :
    stageList (a ++ b) = stageList a ++ stageList b := by
  simp [stageList, List.filterMap_append]

theorem stageList_cons_stageSet (x : WorkflowStage) (tr : List Event) :
    stageList (.stageSet x :: tr) = x :: stageList tr := by simp [stageList]

theorem stageList_cons_progressSet (p : ℚ) (tr : List Event) :
    stageList (.progressSet p :: tr) = stageList tr := by simp [stageList]

theorem stageList_cons_logged (l : LogEntry) (tr : List Event) :
    stageList (.logged l :: tr) = stageList tr := by simp [stageList]

theorem stageList_cons_statusSet (i : String) (st : TaskStatus) (tr : List Event) :
    stageList (.statusSet i st :: tr) = stageList tr := by simp [stageList]

theorem stageList_cons_validateCalled (i : String) (b : Bool) (tr : List Event) :
    stageList (.validateCalled i b :: tr) = stageList tr := by simp [stageList]

theorem stageList_cons_correctionCalled (i : String) (tr : List Event) :
    stageList (.correctionCalled i :: tr) = stageList tr := by simp [stageList]

theorem taskIds_nil : taskIds [] = [] := rfl

theorem taskIds_append (a b : List Event) :
    taskIds (a ++ b) = taskIds a ++ taskIds b := by
  simp [taskIds, List.filterMap_append]

theorem taskIds_cons_stageSet (x : WorkflowStage) (tr : List Event) :
    taskIds (.stageSet x :: tr) = taskIds tr := by simp [taskIds]

theorem taskIds_cons_progressSet (p : ℚ) (tr : List Event) :
    taskIds (.progressSet p :: tr) = taskIds tr := by simp [taskIds]

theorem taskIds_cons_logged (l : LogEntry) (tr : List Event) :
    taskIds (.logged l :: tr) = taskIds tr := by simp [taskIds]

theorem taskIds_cons_statusSet (i : String) (st : TaskStatus) (tr : List Event) :
    taskIds (.statusSet i st :: tr) = i :: taskIds tr := by simp [taskIds]

theorem taskIds_cons_validateCalled (i : String) (b : Bool) (tr : List Event) :
    taskIds (.validateCalled i b :: tr) = taskIds tr := by simp [taskIds]

theorem taskIds_cons_correctionCalled (i : String) (tr : List Event) :
    taskIds (.correctionCalled i :: tr) = taskIds tr := by simp [taskIds]

theorem validationsOf_nil (id : String) : validationsOf id [] = [] := rfl

theorem validationsOf_append (id : String) (a b : List Event) :
    validationsOf id (a ++ b) = validationsOf id a ++ validationsOf id b := by
  simp [validationsOf, List.filterMap_append]

theorem validationsOf_cons_stageSet (id : String) (x : WorkflowStage) (tr : List Event) :
    validationsOf id (.stageSet x :: tr) = validationsOf id tr := by simp [validationsOf]

theorem validationsOf_cons_progressSet (id : String) (p : ℚ) (tr : List Event) :
    validationsOf id (.progressSet p :: tr) = validationsOf id tr := by simp [validationsOf]

theorem validationsOf_cons_logged (id : String) (l : LogEntry) (tr : List Event) :
    validationsOf id (.logged l :: tr) = validationsOf id tr := by simp [validationsOf]

theorem validationsOf_cons_statusSet (id : String) (i : String) (st : TaskStatus) (tr : List Event) :
    validationsOf id (.statusSet i st :: tr) = validationsOf id tr := by simp [validationsOf]

theorem validationsOf_cons_validateCalled (id : String) (i : String) (b : Bool) (tr : List Event) :
    validationsOf id (.validateCalled i b :: tr) = if i = id then b :: validationsOf id tr else validationsOf id tr := by by_cases h : i = id <;> simp [validationsOf, h]

theorem validationsOf_cons_correctionCalled (id : String) (i : String) (tr : List Event) :
    validationsOf id (.correctionCalled i :: tr) = validationsOf id tr := by simp [validationsOf]

theorem statusesOf_nil (id : String) : statusesOf id [] = [] := rfl

theorem statusesOf_append (id : String) (a b : List Event) :
    statusesOf id (a ++ b) = statusesOf id a ++ statusesOf id b := by
  simp [statusesOf, List.filterMap_append]

theorem statusesOf_cons_stageSet (id : String) (x : WorkflowStage) (tr : List Event) :
    statusesOf id (.stageSet x :: tr) = statusesOf id tr := by simp [statusesOf]

theorem statusesOf_cons_progressSet (id : String) (p : ℚ) (tr : List Event) :
    statusesOf id (.progressSet p :: tr) = statusesOf id tr := by simp [statusesOf]

theorem statusesOf_cons_logged (id : String) (l : LogEntry) (tr : List Event) :
    statusesOf id (.logged l :: tr) = statusesOf id tr := by simp [statusesOf]

theorem statusesOf_cons_statusSet (id : String) (i : String) (st : TaskStatus) (tr : List Event) :
    statusesOf id (.statusSet i st :: tr) = if i = id then st :: statusesOf id tr else statusesOf id tr := by by_cases h : i = id <;> simp [statusesOf, h]

theorem statusesOf_cons_validateCalled (id : String) (i : String) (b : Bool) (tr : List Event) :
    statusesOf id (.validateCalled i b :: tr) = statusesOf id tr := by simp [statusesOf]

theorem statusesOf_cons_correctionCalled (id : String) (i : String) (tr : List Event) :
    statusesOf id (.correctionCalled i :: tr) = statusesOf id tr := by simp [statusesOf]

theorem correctionCallsOf_nil (id : String) : correctionCallsOf id [] = [] := rfl

theorem correctionCallsOf_append (id : String) (a b : List Event) :
    correctionCallsOf id (a ++ b) = correctionCallsOf id a ++ correctionCallsOf id b := by
  simp [correctionCallsOf, List.filterMap_append]

theorem correctionCallsOf_cons_stageSet (id : String) (x : WorkflowStage) (tr : List Event) :
    correctionCallsOf id (.stageSet x :: tr) = correctionCallsOf id tr := by simp [correctionCallsOf]

theorem correctionCallsOf_cons_progressSet (id : String) (p : ℚ) (tr : List Event) :
    correctionCallsOf id (.progressSet p :: tr) = correctionCallsOf id tr := by simp [correctionCallsOf]

theorem correctionCallsOf_cons_logged (id : String) (l : LogEntry) (tr : List Event) :
    correctionCallsOf id (.logged l :: tr) = correctionCallsOf id tr := by simp [correctionCallsOf]

theorem correctionCallsOf_cons_statusSet (id : String) (i : String) (st : TaskStatus) (tr : List Event) :
    correctionCallsOf id (.statusSet i st :: tr) = correctionCallsOf id tr := by simp [correctionCallsOf]

theorem correctionCallsOf_cons_validateCalled (id : String) (i : String) (b : Bool) (tr : List Event) :
    correctionCallsOf id (.validateCalled i b :: tr) = correctionCallsOf id tr := by simp [correctionCallsOf]

theorem correctionCallsOf_cons_correctionCalled (id : String) (i : String) (tr : List Event) :
    correctionCallsOf id (.correctionCalled i :: tr) = if i = id then i :: correctionCallsOf id tr else correctionCallsOf id tr := by by_cases h : i = id <;> simp [correctionCallsOf, h]



theorem taskIds_ingestEvents (inputs : List InputDesc) :
    taskIds (ingestEvents inputs) = [] := by
  simp [taskIds, ingestEvents]

theorem correctionCallsOf_ingestEvents (id : String) (inputs : List InputDesc) :
    correctionCallsOf id (ingestEvents inputs) = [] := by
  simp [correctionCallsOf, ingestEvents]



theorem stageEverLogged_ingest_append (st : WorkflowStage)
    (inputs : List InputDesc) (r : List Event) :
    stageEverLogged st (ingestEvents inputs ++ r) = stageEverLogged st r := by
  induction inputs with
  | nil => rfl
  | cons a l ih => simpa [ingestEvents, stageEverLogged] using ih

/-- C6: every task's status history only moves forward through the status
machine — `PENDING` to `RUNNING` to a first terminal outcome, with
`CORRECTED` as the completed-equivalent end of a correction — and never
regresses; in particular `FAILED` is never followed by `RUNNING` outside a
correction attempt (in this code it is never followed by `RUNNING` at all),
and a task that was ever `FAILED` ends as `CORRECTED` or `FAILED`. -/
theorem c6_status_forward_only (cfg : Config) :
    tasksForwardOnly (runTrace cfg) = true := by
  obtain ⟨n, inputs⟩ := cfg
  cases n with
  | none => rfl
  | some nm =>
      obtain ⟨d1, d2, d3, d4, d5, h⟩ := planSteps_shape nm
      have hE := executeWorkflow_some nm inputs d1 d2 d3 d4 d5 h
      have hT : taskIds (runTrace ⟨some nm, inputs⟩) =
          ["task_1", "task_1", "task_2", "task_2", "task_3", "task_3",
           "task_3", "task_4", "task_4", "task_5", "task_5"] := by
        simp [runTrace, hE, demoTrace, taskBlockOk, taskBlock3,
          taskIds_nil, taskIds_append, taskIds_cons_stageSet,
          taskIds_cons_progressSet, taskIds_cons_logged,
          taskIds_cons_statusSet, taskIds_cons_validateCalled,
          taskIds_cons_correctionCalled, taskIds_ingestEvents,
          taskId_1, taskId_2, taskId_3, taskId_4, taskId_5]
      have hS : ∀ id, statusesOf id (runTrace ⟨some nm, inputs⟩) =
          (if "task_1" = id then [TaskStatus.running, TaskStatus.completed] else []) ++
          (if "task_2" = id then [TaskStatus.running, TaskStatus.completed] else []) ++
          (if "task_3" = id then
            [TaskStatus.running, TaskStatus.failed, TaskStatus.corrected] else []) ++
          (if "task_4" = id then [TaskStatus.running, TaskStatus.completed] else []) ++
          (if "task_5" = id then [TaskStatus.running, TaskStatus.completed] else []) := by
        intro id
        by_cases e1 : "task_1" = id <;> by_cases e2 : "task_2" = id <;>
          by_cases e3 : "task_3" = id <;> by_cases e4 : "task_4" = id <;>
          by_cases e5 : "task_5" = id <;>
        simp [runTrace, hE, demoTrace, taskBlockOk, taskBlock3,
          statusesOf_nil, statusesOf_append, statusesOf_cons_stageSet,
          statusesOf_cons_progressSet, statusesOf_cons_logged,
          statusesOf_cons_statusSet, statusesOf_cons_validateCalled,
          statusesOf_cons_correctionCalled, statusesOf_ingestEvents,
          taskId_1, taskId_2, taskId_3, taskId_4, taskId_5, e1, e2, e3, e4, e5]
      simp only [tasksForwardOnly, hT, List.all_cons, List.all_nil, hS]
      decide



/-- C1, counterexample: the claimed correction loop ends each cycle with a
re-validation, so a task whose first validation failed would show at least
two `validate_output` calls; on the demo config task 3's first validation
fails and `validate_output` is called exactly once for it — the engine never
re-validates, has no attempt budget, and never fails the run, so the claim
is false as stated. -/
theorem c1_counterexample :
    ¬ (∀ id, firstValidationFailed id (runTrace ⟨some "demo", []⟩) = true →
        2 ≤ (validationsOf id (runTrace ⟨some "demo", []⟩)).length) := by
  intro hall
  exact absurd (hall "task_3" (by decide)) (by decide)

/-- C1 (amended): for every task whose validation fails, the engine performs
exactly one `apply_correction` call and no re-validation (the single
`validate_output` call for the task is the failing one); the correction
unconditionally marks the task `CORRECTED` (never `FAILED`, never left
`RUNNING`), there is no attempt budget, and the run still completes. -/
theorem c1_correction_single_shot (cfg : Config) (id : String)
    (h : firstValidationFailed id (runTrace cfg) = true) :
    validationsOf id (runTrace cfg) = [false] ∧
    correctionsOf id (runTrace cfg) = 1 ∧
    statusesOf id (runTrace cfg) = [.running, .failed, .corrected] ∧
    (finalRun cfg).stage = .completed := by
  obtain ⟨n, inputs⟩ := cfg
  cases n with
  | none =>
      simp [runTrace, executeWorkflow_none inputs, firstValidationFailed,
        validationsOf] at h
  | some nm =>
      obtain ⟨d1, d2, d3, d4, d5, hp⟩ := planSteps_shape nm
      have hE := executeWorkflow_some nm inputs d1 d2 d3 d4 d5 hp
      have hv : ∀ i, validationsOf i (runTrace ⟨some nm, inputs⟩) =
          (if "task_1" = i then [true] else []) ++
          (if "task_2" = i then [true] else []) ++
          (if "task_3" = i then [false] else []) ++
          (if "task_4" = i then [true] else []) ++
          (if "task_5" = i then [true] else []) := by
        intro i
        by_cases f1 : "task_1" = i <;> by_cases f2 : "task_2" = i <;>
          by_cases f3 : "task_3" = i <;> by_cases f4 : "task_4" = i <;>
          by_cases f5 : "task_5" = i <;>
        simp [runTrace, hE, demoTrace, taskBlockOk, taskBlock3,
          validationsOf_nil, validationsOf_append, validationsOf_cons_stageSet,
          validationsOf_cons_progressSet, validationsOf_cons_logged,
          validationsOf_cons_statusSet, validationsOf_cons_validateCalled,
          validationsOf_cons_correctionCalled, validationsOf_ingestEvents,
          taskId_1, taskId_2, taskId_3, taskId_4, taskId_5, f1, f2, f3, f4, f5]
      by_cases e3 : "task_3" = id
      · subst e3
        refine ⟨?_, ?_, ?_, ?_⟩
        · simp [hv]
        · simp [runTrace, hE, demoTrace, taskBlockOk, taskBlock3,
            correctionsOf, correctionCallsOf_nil, correctionCallsOf_append,
            correctionCallsOf_cons_stageSet, correctionCallsOf_cons_progressSet,
            correctionCallsOf_cons_logged, correctionCallsOf_cons_statusSet,
            correctionCallsOf_cons_validateCalled,
            correctionCallsOf_cons_correctionCalled,
            correctionCallsOf_ingestEvents,
            taskId_1, taskId_2, taskId_3, taskId_4, taskId_5]
        · simp [runTrace, hE, demoTrace, taskBlockOk, taskBlock3,
            statusesOf_nil, statusesOf_append, statusesOf_cons_stageSet,
            statusesOf_cons_progressSet, statusesOf_cons_logged,
            statusesOf_cons_statusSet, statusesOf_cons_validateCalled,
            statusesOf_cons_correctionCalled, statusesOf_ingestEvents,
            taskId_1, taskId_2, taskId_3, taskId_4, taskId_5]
        · simp [finalRun, hE, demoRun]
      · exfalso
        rw [firstValidationFailed, hv id] at h
        by_cases e1 : "task_1" = id <;> by_cases e2 : "task_2" = id <;>
          by_cases e4 : "task_4" = id <;> by_cases e5 : "task_5" = id <;>
          simp [e1, e2, e3, e4, e5] at h

theorem c1_correction_single_shot_witness :
    firstValidationFailed "task_3" (runTrace ⟨some "demo", []⟩) = true ∧
    (validationsOf "task_3" (runTrace ⟨some "demo", []⟩) = [false] ∧
     correctionsOf "task_3" (runTrace ⟨some "demo", []⟩) = 1 ∧
     statusesOf "task_3" (runTrace ⟨some "demo", []⟩) =
       [.running, .failed, .corrected] ∧
     (finalRun ⟨some "demo", []⟩).stage = .completed) :=
  ⟨by decide, c1_correction_single_shot ⟨some "demo", []⟩ "task_3" (by decide)⟩

/-- C4, counterexample: on the config `name := "demo"`, `inputs := []` (which
satisfies the preconditions) the first two postconditions hold but the third
fails: the run's final re-entry into `EXECUTING` after the last task's
validation is followed by the transition to `COMPLETED` with no log entry in
between, so the log does not contain an entry per stage transition. -/
theorem c4_counterexample :
    ¬ (((finalRun ⟨some "demo", []⟩).stage = .completed ∨
        (finalRun ⟨some "demo", []⟩).stage = .failed) ∧
       ((finalRun ⟨some "demo", []⟩).tasks.all fun t => t.status.isTerminal) = true ∧
       everyTransitionLogged (runTrace ⟨some "demo", []⟩) = true) := by
  intro hcl
  exact absurd hcl.2.2 (by decide)

/-- C4 (amended): on every config with a name, the run returns with stage
exactly `COMPLETED` or `FAILED`, every task has reached a terminal status,
and every stage the run enters receives at least one log entry during some
occupancy of that stage — though not between every pair of consecutive
stage transitions (see the counterexample). -/
theorem c4_run_postconditions (cfg : Config) (nm : String)
    (h : cfg.name = some nm) :
    ((finalRun cfg).stage = .completed ∨ (finalRun cfg).stage = .failed) ∧
    ((finalRun cfg).tasks.all fun t => t.status.isTerminal) = true ∧
    everyVisitedStageLogged (runTrace cfg) = true := by
  obtain ⟨n, inputs⟩ := cfg
  cases n with
  | none => exact absurd h (by simp)
  | some nm' =>
      obtain ⟨d1, d2, d3, d4, d5, hp⟩ := planSteps_shape nm'
      have hE := executeWorkflow_some nm' inputs d1 d2 d3 d4 d5 hp
      refine ⟨Or.inl ?_, ?_, ?_⟩
      · simp [finalRun, hE, demoRun]
      · simp [finalRun, hE, demoRun, demoTaskDone, demoTask3,
          TaskStatus.isTerminal]
      · have hsl : stageList (runTrace ⟨some nm', inputs⟩) =
            [.ingesting, .planning, .executing, .validating, .executing,
             .validating, .executing, .validating, .correcting, .executing,
             .validating, .executing, .validating, .executing, .completed] := by
          simp [runTrace, hE, demoTrace, taskBlockOk, taskBlock3,
            stageList_nil, stageList_append, stageList_cons_stageSet,
            stageList_cons_progressSet, stageList_cons_logged,
            stageList_cons_statusSet, stageList_cons_validateCalled,
            stageList_cons_correctionCalled, stageList_ingestEvents]
        simp only [everyVisitedStageLogged, hsl, List.all_cons, List.all_nil]
        simp [runTrace, hE, demoTrace, taskBlockOk, taskBlock3,
          stageEverLogged, logBeforeNextStage, stageEverLogged_ingest_append]

theorem c4_run_postconditions_witness :
    (⟨some "demo", []⟩ : Config).name = some "demo" ∧
    (((finalRun ⟨some "demo", []⟩).stage = .completed ∨
      (finalRun ⟨some "demo", []⟩).stage = .failed) ∧
     ((finalRun ⟨some "demo", []⟩).tasks.all fun t => t.status.isTerminal) = true ∧
     everyVisitedStageLogged (runTrace ⟨some "demo", []⟩) = true) :=
  ⟨rfl, c4_run_postconditions ⟨some "demo", []⟩ "demo" rfl⟩





/-- A sample pending task, used in concrete witnesses. -/
def sampleTask (id : String) (k : Nat) : Task :=
  { id := id, step_number := k, description := "d", status := .pending }

/-- C8: task execution and validation outcomes are determined by step
position, not by inputs or output data — for every task, every inputs list,
every output and every engine state, the task with `step_number = 3` fails
execution with error "Edge case not handled" and fails validation with the
single issue "Missing error handling for edge case: empty citation list" at
severity `medium`, while a task with any other step number completes
execution and passes validation with no issues. -/
theorem c8_step3_hardcoded (t : Task) (inputs : List InputDesc) (o : TaskOut)
    (s s' : EngineState) :
    (t.step_number = 3 →
      (executeTask t inputs s).1.status = .failed ∧
      (executeTask t inputs s).1.error = some "Edge case not handled" ∧
      (executeTask t inputs s).2.1 = .failure "Edge case not handled" ∧
      (validateOutput t o s').1 =
        ⟨false, ["Missing error handling for edge case: empty citation list"],
          "medium", t.id⟩) ∧
    (t.step_number ≠ 3 →
      (executeTask t inputs s).1.status = .completed ∧
      (executeTask t inputs s).1.error = t.error ∧
      (validateOutput t o s').1 = ⟨true, [], "none", t.id⟩) := by
  constructor
  · intro h3
    refine ⟨?_, ?_, ?_, ?_⟩ <;> simp [executeTask, validateOutput, h3]
  · intro h3
    refine ⟨?_, ?_, ?_⟩ <;> simp [executeTask, validateOutput, h3]

theorem c8_step3_hardcoded_witness :
    (((sampleTask "task_3" 3).step_number = 3) ∧
      ((executeTask (sampleTask "task_3" 3) [] (initState ⟨some "w", []⟩)).1.status = .failed ∧
       (executeTask (sampleTask "task_3" 3) [] (initState ⟨some "w", []⟩)).1.error =
         some "Edge case not handled" ∧
       (executeTask (sampleTask "task_3" 3) [] (initState ⟨some "w", []⟩)).2.1 =
         .failure "Edge case not handled" ∧
       (validateOutput (sampleTask "task_3" 3) (.output "task_3" "r")
           (initState ⟨some "w", []⟩)).1 =
         ⟨false, ["Missing error handling for edge case: empty citation list"],
           "medium", "task_3"⟩)) ∧
    (((sampleTask "task_1" 1).step_number ≠ 3) ∧
      ((executeTask (sampleTask "task_1" 1) [] (initState ⟨some "w", []⟩)).1.status = .completed ∧
       (executeTask (sampleTask "task_1" 1) [] (initState ⟨some "w", []⟩)).1.error = none ∧
       (validateOutput (sampleTask "task_1" 1) (.output "task_1" "r")
           (initState ⟨some "w", []⟩)).1 = ⟨true, [], "none", "task_1"⟩)) :=
  ⟨⟨rfl, (c8_step3_hardcoded (sampleTask "task_3" 3) [] (.output "task_3" "r")
      (initState ⟨some "w", []⟩) (initState ⟨some "w", []⟩)).1 rfl⟩,
   ⟨by decide, (c8_step3_hardcoded (sampleTask "task_1" 1) [] (.output "task_1" "r")
      (initState ⟨some "w", []⟩) (initState ⟨some "w", []⟩)).2 (by decide)⟩⟩

/-- C9: for every config and engine state, `generate_plan` returns exactly
five tasks with ids `task_1` .. `task_5`, contiguous step numbers 1..5 and
status `PENDING`, regardless of the inputs list (two configs with the same
name get identical plans, whatever their inputs — only the descriptions
depend on the name). -/
theorem c9_plan_shape (cfg : Config) (s : EngineState) :
    (generatePlan cfg s).1.length = 5 ∧
    (generatePlan cfg s).1.map (fun t => t.id) =
      ["task_1", "task_2", "task_3", "task_4", "task_5"] ∧
    (generatePlan cfg s).1.map (fun t => t.step_number) = [1, 2, 3, 4, 5] ∧
    ((generatePlan cfg s).1.all fun t => t.status = .pending) = true ∧
    (∀ cfg' s', cfg'.name = cfg.name →
      (generatePlan cfg' s').1 = (generatePlan cfg s).1) := by
  obtain ⟨d1, d2, d3, d4, d5, hp⟩ := planSteps_shape (cfg.name.getD "workflow")
  have hfst : ∀ (c : Config) (st : EngineState), c.name = cfg.name →
      (generatePlan c st).1 = mkTasks (planSteps (cfg.name.getD "workflow")) := by
    intro c st hc
    simp [generatePlan, hc]
  refine ⟨?_, ?_, ?_, ?_, fun cfg' s' hc => ?_⟩
  · rw [hfst cfg s rfl, hp]; rfl
  · rw [hfst cfg s rfl, hp]
    simp [mkTasks, mkTasksFrom, taskId_1, taskId_2, taskId_3, taskId_4, taskId_5]
  · rw [hfst cfg s rfl, hp]; rfl
  · rw [hfst cfg s rfl, hp]; rfl
  · rw [hfst cfg' s' hc, hfst cfg s rfl]

theorem c9_plan_shape_witness :
    (generatePlan ⟨some "demo", [⟨some "pdf", some "a.pdf"⟩]⟩
        (initState ⟨some "demo", []⟩)).1 =
      (generatePlan ⟨some "demo", []⟩ (initState ⟨some "demo", []⟩)).1 :=
  (c9_plan_shape ⟨some "demo", []⟩ (initState ⟨some "demo", []⟩)).2.2.2.2
    ⟨some "demo", [⟨some "pdf", some "a.pdf"⟩]⟩ (initState ⟨some "demo", []⟩) rfl




namespace Validator

/-- The shape of a task-output mapping as the validator's rules inspect it:
`output.get('citations', [])` (a missing key is the empty list), and the key
membership tests `'result' in output` / `'data' in output`.  A `VOutput`
models a Python dict, so `_check_format`'s `isinstance(output, dict)` test
always holds. -/
structure VOutput where
  citations : List String
  hasResult : Bool
  hasData : Bool
deriving DecidableEq, Repr

/-- `Validator._check_citations` (validator.py lines 66-74). -/
def checkCitations (o : VOutput) : Bool × List String :=
  if o.citations.length = 0 then (false, ["Missing citations"]) else (true, [])

/-- Python's `f in output` for the two required field names. -/
def hasKey (o : VOutput) (f : String) : Bool :=
  if f = "result" then o.hasResult else if f = "data" then o.hasData else false

/-- `Validator._check_completeness` (validator.py lines 76-84). -/
def checkCompleteness (o : VOutput) : Bool × List String :=
  let missing := ["result", "data"].filter fun f => ! hasKey o f
  if missing.isEmpty then (true, [])
  else (false, missing.map fun f => "Missing required field: " ++ f)

/-- `Validator._check_format` (validator.py lines 86-91): the
`not isinstance(output, dict)` test is never true for a mapping, so the rule
always passes in this embedding. -/
def checkFormat (o : VOutput) : Bool × List String :=
  let _ := o
  if false then (false, ["Output must be a dictionary"]) else (true, [])

/-- `Validator._calculate_quality_score` (validator.py lines 93-101): the
mock score 0.85 against the threshold 0.7. -/
def calculateQualityScore (o : VOutput) : Bool × List String :=
  let _ := o
  let score : ℚ := 85 / 100
  if score < 7 / 10 then (false, ["Quality score too low: 0.85"]) else (true, [])

/-- A validation rule (validator.py, class `ValidationRule`). -/
structure ValidationRule where
  name : String
  description : String
  severity : String
  check_function : VOutput → Bool × List String

/-- `Validator._load_default_rules` (validator.py lines 37-64); a Python dict
preserves insertion order, so the registration order is a list. -/
def defaultRules : List ValidationRule :=
  [ { name := "citation_check",
      description := "Verify all citations are present and properly formatted",
      severity := "medium", check_function := checkCitations },
    { name := "completeness_check",
      description := "Ensure all required sections are present",
      severity := "high", check_function := checkCompleteness },
    { name := "format_check",
      description := "Validate output format matches requirements",
      severity := "low", check_function := checkFormat },
    { name := "quality_score",
      description := "Calculate overall output quality score",
      severity := "medium", check_function := calculateQualityScore } ]

/-- The `max_severity` update chain of `Validator.validate`
(validator.py lines 134-139); note it never assigns `"low"`. -/
def bumpSeverity (ruleSev maxSev : String) : String :=
  if ruleSev = "critical" then "critical"
  else if ruleSev = "high" ∧ maxSev ≠ "critical" then "high"
  else if ruleSev = "medium" ∧ maxSev ∉ (["critical", "high"] : List String) then
    "medium"
  else maxSev

/-- The rule loop of `Validator.validate` (validator.py lines 126-139),
accumulating `(all_issues, max_severity)`. -/
def runRules (output : VOutput) : List String × String :=
  defaultRules.foldl
    (fun acc rule =>
      let (passed, issues) := rule.check_function output
      if passed then acc
      else (acc.1 ++ issues, bumpSeverity rule.severity acc.2))
    ([], "none")

/-- The quality rule always passes: the mock score 0.85 is not below the
0.7 threshold. -/
theorem calculateQualityScore_eq (o : VOutput) :
    calculateQualityScore o = (true, []) := by
  norm_num [calculateQualityScore]

/-- The task fields `Validator.validate` reads. -/
structure VTask where
  id : String
  step_number : Nat
deriving DecidableEq, Repr

/-- `Validator.validate` (validator.py lines 103-146): the step-3
short-circuit, then the rule loop. -/
def validate (task : VTask) (output : VOutput) : ValidationResult :=
  if task.step_number = 3 then
    ⟨false, ["Missing error handling for edge case: empty citation list"],
      "medium", task.id⟩
  else
    let (all_issues, max_severity) := runRules output
    ⟨all_issues.length == 0, all_issues, max_severity, task.id⟩

/-- Modelled from the spec: overall passed is true iff every rule passes
(§4.4 aggregation policy). -/
def specPassed (output : VOutput) : Bool :=
  defaultRules.all fun r => (r.check_function output).1

/-- Modelled from the spec: the issues are the concatenation of all failing
rules' issues in rule-registration order. -/
def specIssues (output : VOutput) : List String :=
  ((defaultRules.filter fun r => !(r.check_function output).1).map
    fun r => (r.check_function output).2).flatten

/-- Modelled from the spec: the severity order
none < low < medium < high < critical. -/
def sevRank : String → Nat
  | "none" => 0
  | "low" => 1
  | "medium" => 2
  | "high" => 3
  | "critical" => 4
  | _ => 0

/-- Modelled from the spec: the maximum severity among failing rules. -/
def specSeverity (output : VOutput) : String :=
  (defaultRules.filter fun r => !(r.check_function output).1).foldl
    (fun m r => if sevRank m < sevRank r.severity then r.severity else m) "none"

end Validator

/-- C2, counterexample: `Validator.validate` does not follow the aggregation
policy for every task — for a task with `step_number = 3` it short-circuits
to a fixed failure, so on an output every rule passes (citations present,
result and data fields present) it still returns `passed = false` with the
hard-coded issue, contradicting "passed iff every rule passes". -/
theorem c2_counterexample :
    ¬ ((Validator.validate ⟨"task_3", 3⟩ ⟨["c1"], true, true⟩).passed =
         Validator.specPassed ⟨["c1"], true, true⟩ ∧
       (Validator.validate ⟨"task_3", 3⟩ ⟨["c1"], true, true⟩).issues =
         Validator.specIssues ⟨["c1"], true, true⟩ ∧
       (Validator.validate ⟨"task_3", 3⟩ ⟨["c1"], true, true⟩).severity =
         Validator.specSeverity ⟨["c1"], true, true⟩) := by
  intro hcl
  have h1 : (Validator.validate ⟨"task_3", 3⟩ ⟨["c1"], true, true⟩).passed = false := rfl
  have h2 : Validator.specPassed ⟨["c1"], true, true⟩ = true := by
    simp [Validator.specPassed, Validator.defaultRules,
      Validator.checkCitations, Validator.checkCompleteness,
      Validator.checkFormat, Validator.calculateQualityScore_eq, Validator.hasKey]
  rw [h1, h2] at hcl
  exact Bool.noConfusion hcl.1

/-- C2 (amended): for every task with `step_number ≠ 3` and every output,
`Validator.validate` returns `passed` true iff every rule passes, the
concatenation of the failing rules' issues in registration order, and the
maximum severity (none < low < medium < high < critical) among failing rules
(reachable failures are the medium citation rule and the high completeness
rule, for which the source's update chain agrees with the maximum). -/
theorem c2_rule_aggregation (task : Validator.VTask) (output : Validator.VOutput)
    (h3 : task.step_number ≠ 3) :
    Validator.validate task output =
      ⟨Validator.specPassed output, Validator.specIssues output,
        Validator.specSeverity output, task.id⟩ := by
  obtain ⟨cits, hr, hd⟩ := output
  rcases cits with _ | ⟨c, cs⟩ <;> cases hr <;> cases hd <;>
    simp [Validator.validate, h3, Validator.runRules, Validator.defaultRules,
      Validator.checkCitations, Validator.checkCompleteness,
      Validator.checkFormat, Validator.calculateQualityScore_eq, Validator.hasKey,
      Validator.bumpSeverity, Validator.specPassed, Validator.specIssues,
      Validator.specSeverity, Validator.sevRank]

theorem c2_rule_aggregation_witness :
    ((⟨"t1", 1⟩ : Validator.VTask).step_number ≠ 3) ∧
    Validator.validate ⟨"t1", 1⟩ ⟨[], true, true⟩ =
      ⟨Validator.specPassed ⟨[], true, true⟩,
        Validator.specIssues ⟨[], true, true⟩,
        Validator.specSeverity ⟨[], true, true⟩, "t1"⟩ :=
  ⟨by decide, c2_rule_aggregation ⟨"t1", 1⟩ ⟨[], true, true⟩ (by decide)⟩




namespace CorrectionStrategies

/-- The single-quote character of Python's `str` rendering of a list
(codepoint 39). -/
def quoteChar : Char := Char.ofNat 39

/-- The tail of Python's `str` of a list of strings: ", 'x'" for each
further item, then the closing bracket. -/
def pyReprAux : List (List Char) → List Char
  | [] => [ ']' ]
  | i :: rest => ',' :: ' ' :: quoteChar :: (i ++ quoteChar :: pyReprAux rest)

/-- Python's `str` of a list of strings, on character lists: "[]" for the
empty list, otherwise each item wrapped in single quotes and separated by
", " (faithful for issue text without embedded quotes or escapes, which
`repr` would escape). -/
def pyRepr : List (List Char) → List Char
  | [] => [ '[', ']' ]
  | i :: rest => '[' :: quoteChar :: (i ++ quoteChar :: pyReprAux rest)

/-- `CorrectionStrategies.select_strategy` (strategies.py lines 22-30; the
class is defined inside that file's `STRATEGIES_CODE` string literal):
`'edge case' in str(validation.issues).lower()` selects
`inject_defensive_code`, else `'timeout' in ...` selects
`retry_with_modified_input`, else `use_alternative_method`. -/
def select_strategy (validation : ValidationResult) : String :=
  let text := pyLower (pyRepr (validation.issues.map String.toList))
  if pyInStr "edge case".toList text then "inject_defensive_code"
  else if pyInStr "timeout".toList text then "retry_with_modified_input"
  else "use_alternative_method"

/-- Modelled from the spec: first-match-wins, case-insensitive substring
matching over the issue text — an issue containing "edge case" selects
`inject_defensive_code`; otherwise one containing "timeout" selects
`retry_with_modified_input`; anything else `use_alternative_method`. -/
def specSelect (issues : List String) : String :=
  if issues.any fun i => pyInStr "edge case".toList (pyLower i.toList) then
    "inject_defensive_code"
  else if issues.any fun i => pyInStr "timeout".toList (pyLower i.toList) then
    "retry_with_modified_input"
  else "use_alternative_method"

theorem charsPrefix_iff (n : List Char) : ∀ h, charsPrefix n h = true ↔ n <+: h := by
  induction n with
  | nil => intro h; simp [charsPrefix]
  | cons a n' ih =>
      intro h
      cases h with
      | nil => simp [charsPrefix, List.prefix_nil]
      | cons b h' => simp [charsPrefix, ih, List.cons_prefix_cons]

theorem pyInStr_iff (n : List Char) : ∀ h, pyInStr n h = true ↔ n <:+: h := by
  intro h
  induction h with
  | nil => simp [pyInStr, charsPrefix_iff, List.prefix_nil, List.infix_nil]
  | cons b h' ih => simp [pyInStr, charsPrefix_iff, ih, List.infix_cons_iff]

theorem prefix_drop_sep {c : Char} :
    ∀ {n : List Char} (a : List Char) {b : List Char},
      c ∉ n → n <+: a ++ c :: b → n <+: a := by
  intro n
  induction n with
  | nil => intro a b _ _; exact List.nil_prefix
  | cons x n' ih =>
      intro a b hc h
      cases a with
      | nil =>
          rcases List.cons_prefix_cons.mp h with ⟨rfl, _⟩
          exact absurd (List.mem_cons_self x n') hc
      | cons y a' =>
          rcases List.cons_prefix_cons.mp (by simpa using h) with ⟨rfl, h2⟩
          exact List.cons_prefix_cons.mpr
            ⟨rfl, ih a' (fun hm => hc (List.mem_cons_of_mem _ hm)) h2⟩

theorem infix_split {c : Char} {n : List Char} :
    ∀ (a : List Char) {b : List Char},
      c ∉ n → n <:+: a ++ c :: b → n <:+: a ∨ n <:+: b := by
  intro a
  induction a with
  | nil =>
      intro b hc h
      rw [List.nil_append] at h
      rcases List.infix_cons_iff.mp h with hp | hi
      · cases n with
        | nil => exact Or.inl (List.nil_prefix.isInfix)
        | cons x n' =>
            rcases List.cons_prefix_cons.mp hp with ⟨rfl, _⟩
            exact absurd (List.mem_cons_self x n') hc
      · exact Or.inr hi
  | cons y a' ih =>
      intro b hc h
      rcases List.infix_cons_iff.mp h with hp | hi
      · exact Or.inl (prefix_drop_sep (y :: a') hc (by simpa using hp)).isInfix
      · rcases ih hc hi with h1 | h2
        · exact Or.inl (List.infix_cons_iff.mpr (Or.inr h1))
        · exact Or.inr h2

theorem infix_pyReprAux {n : List Char} (hq : quoteChar ∉ n)
    (hl : 3 ≤ n.length) :
    ∀ (l : List (List Char)), (n <:+: pyReprAux l ↔ ∃ i ∈ l, n <:+: i) := by
  intro l
  induction l with
  | nil =>
      constructor
      · intro h
        have hle := h.length_le
        simp [pyReprAux] at hle
        omega
      · rintro ⟨i, hi, _⟩
        simp at hi
  | cons i rest ih =>
      constructor
      · intro h
        have h' : n <:+: [',', ' '] ++ quoteChar :: (i ++ quoteChar :: pyReprAux rest) := by
          simpa [pyReprAux] using h
        rcases infix_split _ hq h' with h1 | h2
        · have hle := h1.length_le
          simp at hle
          omega
        · rcases infix_split _ hq h2 with h3 | h4
          · exact ⟨i, by simp, h3⟩
          · rcases ih.mp h4 with ⟨j, hj, hnj⟩
            exact ⟨j, by simp [hj], hnj⟩
      · rintro ⟨j, hj, hnj⟩
        rcases hnj with ⟨s, t, hst⟩
        rcases List.mem_cons.mp hj with rfl | hjr
        · exact ⟨',' :: ' ' :: quoteChar :: s,
            t ++ quoteChar :: pyReprAux rest, by simp [pyReprAux, ← hst]⟩
        · rcases ih.mpr ⟨j, hjr, ⟨s, t, hst⟩⟩ with ⟨s', t', hst'⟩
          exact ⟨',' :: ' ' :: quoteChar :: (i ++ quoteChar :: s'), t', by
            simp [pyReprAux, ← hst']⟩

theorem infix_pyRepr {n : List Char} (hq : quoteChar ∉ n) (hl : 3 ≤ n.length) :
    ∀ (l : List (List Char)), (n <:+: pyRepr l ↔ ∃ i ∈ l, n <:+: i) := by
  intro l
  cases l with
  | nil =>
      constructor
      · intro h
        have hle := h.length_le
        simp [pyRepr] at hle
        omega
      · rintro ⟨i, hi, _⟩
        simp at hi
  | cons i rest =>
      constructor
      · intro h
        have h' : n <:+: ['['] ++ quoteChar :: (i ++ quoteChar :: pyReprAux rest) := by
          simpa [pyRepr] using h
        rcases infix_split _ hq h' with h1 | h2
        · have hle := h1.length_le
          simp at hle
          omega
        · rcases infix_split _ hq h2 with h3 | h4
          · exact ⟨i, by simp, h3⟩
          · rcases (infix_pyReprAux hq hl rest).mp h4 with ⟨j, hj, hnj⟩
            exact ⟨j, by simp [hj], hnj⟩
      · rintro ⟨j, hj, hnj⟩
        rcases hnj with ⟨s, t, hst⟩
        rcases List.mem_cons.mp hj with rfl | hjr
        · exact ⟨'[' :: quoteChar :: s, t ++ quoteChar :: pyReprAux rest, by
            simp [pyRepr, ← hst]⟩
        · rcases (infix_pyReprAux hq hl rest).mpr ⟨j, hjr, ⟨s, t, hst⟩⟩ with ⟨s', t', hst'⟩
          exact ⟨'[' :: quoteChar :: (i ++ quoteChar :: s'), t', by
            simp [pyRepr, ← hst']⟩

theorem lower_comma : Char.toLower ',' = ',' := by decide

theorem lower_space : Char.toLower ' ' = ' ' := by decide

theorem lower_quote : Char.toLower quoteChar = quoteChar := by decide

theorem lower_lbracket : Char.toLower '[' = '[' := by decide

theorem lower_rbracket : Char.toLower ']' = ']' := by decide

theorem pyLower_pyReprAux :
    ∀ (l : List (List Char)), pyLower (pyReprAux l) = pyReprAux (l.map pyLower) := by
  intro l
  induction l with
  | nil => decide
  | cons i rest ih =>
      simp [pyReprAux, pyLower, lower_comma, lower_space, lower_quote,
        lower_rbracket] at ih ⊢
      simpa using ih

theorem pyLower_pyRepr (l : List (List Char)) :
    pyLower (pyRepr l) = pyRepr (l.map pyLower) := by
  cases l with
  | nil => decide
  | cons i rest =>
      have ha := pyLower_pyReprAux rest
      simp [pyRepr, pyLower, lower_lbracket, lower_quote] at ha ⊢
      simpa using ha

theorem select_key (issues : List String) (needle : List Char)
    (hq : quoteChar ∉ needle) (hl : 3 ≤ needle.length) :
    pyInStr needle (pyLower (pyRepr (issues.map String.toList))) =
      issues.any fun i => pyInStr needle (pyLower i.toList) := by
  rw [Bool.eq_iff_iff, pyLower_pyRepr, List.map_map, pyInStr_iff,
    infix_pyRepr hq hl, List.any_eq_true]
  constructor
  · rintro ⟨j, hj, hnj⟩
    rcases List.mem_map.mp hj with ⟨i, hi, rfl⟩
    exact ⟨i, hi, (pyInStr_iff needle _).mpr (by simpa using hnj)⟩
  · rintro ⟨i, hi, hb⟩
    exact ⟨pyLower i.toList, List.mem_map.mpr ⟨i, hi, rfl⟩,
      by simpa using (pyInStr_iff needle _).mp hb⟩

end CorrectionStrategies

/-- C7: for every validation result, `select_strategy` picks the strategy by
first-match-wins case-insensitive substring matching — an issue containing
"edge case" yields `inject_defensive_code`, else one containing "timeout"
yields `retry_with_modified_input`, else `use_alternative_method`; the
source's matching over `str(issues).lower()` agrees with per-issue matching
because the needles contain no quote character and are longer than the
rendering's separators. -/
theorem c7_strategy_selection (v : ValidationResult) :
    CorrectionStrategies.select_strategy v =
      CorrectionStrategies.specSelect v.issues := by
  simp only [CorrectionStrategies.select_strategy, CorrectionStrategies.specSelect]
  rw [CorrectionStrategies.select_key v.issues "edge case".toList (by decide)
      (by decide),
    CorrectionStrategies.select_key v.issues "timeout".toList (by decide)
      (by decide)]


end MRWA
